import Mathlib

/-!
Verification of the evocable audiobook pipeline against its specification.

The definitions below are shallow embeddings of the Python sources:
machine strings become `String` or `List Char`, JSON dicts become
structures with `Option` fields for keys that may be absent, timestamps
become `Int` seconds, and float durations become `Rat`.  Each definition
carries a comment naming the source function it embeds.
-/

namespace Evocable

/-- An HTTP error as raised by FastAPI handlers: status code plus detail. -/
structure HttpError where
  status : Nat
  detail : String
deriving DecidableEq, Repr

/-! ## Password validation (C6)

Embeds the three validators on the registration path and the stricter
`PasswordValidator` from `services/api/security.py`.  Passwords are
`List Char`. -/

/-- Character class `[A-Z]` of the regex in `RegisterRequest.validate_password_strength`. -/
def hasUppercase (p : List Char) : Bool :=
  p.any (fun c => 65 ≤ c.toNat && c.toNat ≤ 90)

/-- Character class `[a-z]`. -/
def hasLowercase (p : List Char) : Bool :=
  p.any (fun c => 97 ≤ c.toNat && c.toNat ≤ 122)

/-- Character class `\d`. -/
def hasDigit (p : List Char) : Bool :=
  p.any (fun c => 48 ≤ c.toNat && c.toNat ≤ 57)

/-- The special characters accepted by the validators. -/
def specialChars : List Char :=
  ['!', '@', '#', '$', '%', '^', '&', '*', '(', ')', ',', '.', '?', '"',
   ':', '{', '}', '|', '<', '>']

/-- Character class of specials from the regex in the validators. -/
def hasSpecial (p : List Char) : Bool :=
  p.any (fun c => specialChars.contains c)

/-- The four character-class checks shared by `RegisterRequest.validate_password_strength`
(`services/api/auth_models.py`) and `UserCreateRequest.validate_password`
(`services/storage/user_service.py`). -/
def passwordClassesOk (p : List Char) : Bool :=
  hasUppercase p && hasLowercase p && hasDigit p && hasSpecial p

/-- Pydantic validation of `RegisterRequest.password`: `Field` bounds
`min_length=8, max_length=128` together with the class validator. -/
def registerRequestPasswordOk (p : List Char) : Bool :=
  decide (8 ≤ p.length) && decide (p.length ≤ 128) && passwordClassesOk p

/-- Pydantic validation of `UserCreateRequest.password` in the storage
service: `min_length=8` (no maximum) plus the class validator. -/
def userCreateRequestPasswordOk (p : List Char) : Bool :=
  decide (8 ≤ p.length) && passwordClassesOk p

/-- The password check actually performed by `POST /auth/register`:
the gateway validates `RegisterRequest`, then forwards to the storage
service whose queue processor re-validates via `UserCreateRequest`.
Neither path invokes `security.PasswordValidator`. -/
def registrationPasswordAccepted (p : List Char) : Bool :=
  registerRequestPasswordOk p && userCreateRequestPasswordOk p

/-- The reject list of `PasswordValidator._get_common_passwords`
(`services/api/security.py`). -/
def commonPasswords : List (List Char) :=
  ["password".data, "123456".data, "123456789".data, "qwerty".data,
   "abc123".data, "password123".data, "admin".data, "letmein".data,
   "welcome".data, "monkey".data, "dragon".data, "login".data,
   "master".data, "hello".data, "freedom".data]

/-- The regex `(.)\1{3,}` of `PasswordValidator.validate_password`: a run of
more than 3 identical consecutive characters. -/
def hasRunOfFour : List Char → Bool
  | a :: b :: c :: d :: rest =>
      if a = b && b = c && c = d then true else hasRunOfFour (b :: c :: d :: rest)
  | _ => false

/-- `PasswordValidator.validate_password` from `services/api/security.py`:
length bounds, the four classes, the common-password list (compared on the
lowercased password) and the run check.  Returns the `valid` flag. -/
def passwordValidatorValid (p : List Char) : Bool :=
  decide (8 ≤ p.length) && decide (p.length ≤ 128) && passwordClassesOk p
    && !(commonPasswords.contains (p.map Char.toLower)) && !(hasRunOfFour p)

/-! ## Session tokens (C9)

Embeds `SessionManager` from `services/api/auth_models.py`.  A JWT is
modelled as its payload; `jwt.encode`/`jwt.decode` with a fixed secret
become the identity, with `decode` enforcing the `exp` claim.  Times are
Unix seconds (`Int`). -/

/-- Payload of a signed token: claims `sub`, `username`, `exp`, `type`. -/
structure TokenPayload where
  sub : String
  username : String
  exp : Int
  typ : String
deriving DecidableEq, Repr

/-- `SessionManager.create_session_token`: expiry is 24 h, or 24 h × 30
when `remember` is set.  Returns the token together with `expires_at`. -/
def create_session_token (now : Int) (user_id : String) (username : String)
    (remember : Bool) : TokenPayload × Int :=
  let expiryHours : Int := if remember then 24 * 30 else 24
  let expiresAt : Int := now + expiryHours * 3600
  ({ sub := user_id, username := username, exp := expiresAt, typ := "session" }, expiresAt)

/-- `SessionManager.validate_session_token`: `jwt.decode` rejects an
expired token, then the payload must carry `type = "session"`. -/
def validate_session_token (now : Int) (tok : TokenPayload) : Option TokenPayload :=
  if tok.exp < now then none
  else if tok.typ ≠ "session" then none
  else some tok

/-- `SessionManager.refresh_session_token`: validates the presented token,
requires a `sub` claim, then issues a fresh token via
`create_session_token(user_id, username, remember=True)`.  The `User`
object also returned by the source is irrelevant to expiry and omitted. -/
def refresh_session_token (now : Int) (tok : TokenPayload) :
    Option (TokenPayload × Int) :=
  match validate_session_token now tok with
  | none => none
  | some payload =>
      if payload.sub = "" then none
      else some (create_session_token now payload.sub payload.username true)

/-! ## Signed chunk URLs (C5)

Embeds `generate_signed_url` and `verify_signed_url` from
`services/api/main.py`.  `hmac.new(secret, data, sha256).hexdigest()` is
abstracted as a function parameter `hmacHex`; both sides of the claim use
the same function, so no property of SHA-256 is assumed.  Query
parameters that are absent (Python's falsy check) are `none`. -/

/-- The endpoint path `f"/api/v1/books/{book_id}/chunks/{chunk_seq}"`. -/
def chunkEndpoint (book_id : String) (chunk_seq : Nat) : String :=
  "/api/v1/books/" ++ book_id ++ "/chunks/" ++ toString chunk_seq

/-- The signature input `f"{endpoint}:{expires}:{token}"`. -/
def signatureData (endpoint : String) (expires : Int) (token : String) : String :=
  endpoint ++ ":" ++ toString expires ++ ":" ++ token

/-- The query parameters carried by a generated signed URL. -/
structure SignedUrlParams where
  expires : Int
  signature : String
  token : String
deriving DecidableEq, Repr

/-- `generate_signed_url`: `expires = now + expires_in`, signature is the
HMAC of the signature data under the session secret. -/
def generate_signed_url (hmacHex : String → String → String) (secret : String)
    (book_id : String) (chunk_seq : Nat) (token : String) (now expires_in : Int) :
    SignedUrlParams :=
  let expiresAt : Int := now + expires_in
  { expires := expiresAt
    signature := hmacHex secret (signatureData (chunkEndpoint book_id chunk_seq) expiresAt token)
    token := token }

/-- `verify_signed_url`: requires all three parameters, rejects when
`now > expires`, recomputes the HMAC and compares
(`hmac.compare_digest` is equality), then validates the embedded token
as a session token.  Returns the token on success. -/
def verify_signed_url (hmacHex : String → String → String) (secret : String)
    (validateToken : String → Bool) (now : Int) (book_id : String) (chunk_seq : Nat)
    (expires : Option Int) (signature : Option String) (token : Option String) :
    Except HttpError String :=
  match expires, signature, token with
  | some exp, some sig, some tok =>
      if now > exp then
        .error ⟨401, "Signed URL has expired"⟩
      else
        let expected := hmacHex secret (signatureData (chunkEndpoint book_id chunk_seq) exp tok)
        if sig ≠ expected then
          .error ⟨401, "Invalid signature"⟩
        else if validateToken tok then
          .ok tok
        else
          .error ⟨401, "Invalid authentication token"⟩
  | _, _, _ => .error ⟨401, "Missing signed URL parameters"⟩

/-! ## The chunk streaming handler (C1)

Embeds `get_audio_chunk` from `services/api/main.py` (lines 2265-2355).
The handler consults the gateway-local SQLite `books` table (created by
`DatabaseManager` in `services/api/models.py`; it has no owner column)
and the storage service's audio-chunk listing, which arrives as an HTTP
response and is therefore an input here.  The storage-side `books` table
(`database_models.Book`) does carry `user_id`; the handler never reads
it. -/

/-- A row of the gateway-local `books` table (`models.py`); note the
schema has no user or owner column. -/
structure GatewayBookRow where
  id : String
  title : String
  format : String
  status : String
  percent_complete : Rat
  total_chunks : Nat
deriving Repr

/-- A row of the storage service's `books` table
(`services/storage/database_models.py`), which does record the owner. -/
structure StorageBookRow where
  id : String
  title : String
  status : String
  user_id : String
deriving DecidableEq, Repr

/-- One chunk entry of the storage service's audio-chunk listing. -/
structure StorageChunkInfo where
  seq : Nat
  duration_s : Rat
  file_path : String
deriving DecidableEq, Repr

/-- The HTTP response the gateway receives from
`GET {storage}/books/{book_id}/audio-chunks`. -/
structure StorageChunksResponse where
  status_code : Nat
  chunks : List StorageChunkInfo
deriving Repr

/-- The parts of the incoming request that `get_audio_chunk` reads. -/
structure ChunkRequest where
  query_expires : Option Int
  query_signature : Option String
  query_token : Option String
  header_token : Option String
  if_none_match : Option String
deriving Repr

/-- The handler's possible outcomes: a file response with its headers, a
304, or an `HTTPException`. -/
inductive ChunkResponse where
  | file (path media_type cache_control etag : String)
  | notModified
  | failure (e : HttpError)
deriving DecidableEq, Repr

/-- `verify_authentication_query` (`services/api/main.py`): a valid
bearer header wins, else a valid `token` query parameter, else 401. -/
def verify_authentication_query (validateToken : String → Bool)
    (header_token query_token : Option String) : Except HttpError String :=
  let headerHit : Option String :=
    match header_token with
    | some t => if validateToken t then some t else none
    | none => none
  match headerHit with
  | some t => .ok t
  | none =>
      match query_token with
      | some t =>
          if validateToken t then .ok t
          else .error ⟨401, "Missing or invalid authentication credentials"⟩
      | none => .error ⟨401, "Missing or invalid authentication credentials"⟩

/-- Python's `str.strip('"')`: removes leading and trailing quote runs. -/
def stripQuotes (s : String) : String :=
  String.mk (((s.data.dropWhile (· = '"')).reverse.dropWhile (· = '"')).reverse)

/-- `get_audio_chunk`: authenticates via signed URL when a `signature`
query parameter is present, otherwise via header or `token` query
parameter; checks that the book id exists in the gateway-local table
(existence only — the row has no owner to compare against); looks the
chunk up in the storage response; checks the file exists; then serves it
with `audio/ogg`, caching headers, an ETag derived from the file, and a
304 on a matching `If-None-Match`.  `sessionUser` models
`validate_session_token` on encoded tokens, returning the user id of a
valid session token; `fileExists` and `etagOf` model the filesystem
(`Path.exists` and the md5 of `"{path}:{mtime}:{size}"`). -/
def get_audio_chunk (hmacHex : String → String → String) (secret : String)
    (sessionUser : String → Option String) (now : Int)
    (fileExists : String → Bool) (etagOf : String → String)
    (books : List GatewayBookRow) (storageResp : StorageChunksResponse)
    (book_id : String) (seq : Nat) (req : ChunkRequest) : ChunkResponse :=
  let validateToken : String → Bool := fun t => (sessionUser t).isSome
  let auth : Except HttpError String :=
    if req.query_signature.isSome then
      verify_signed_url hmacHex secret validateToken now book_id seq
        req.query_expires req.query_signature req.query_token
    else
      verify_authentication_query validateToken req.header_token req.query_token
  match auth with
  | .error e => .failure e
  | .ok _token =>
      match books.find? (fun b => b.id == book_id) with
      | none => .failure ⟨404, "Book with ID " ++ book_id ++ " not found"⟩
      | some _book =>
          if storageResp.status_code ≠ 200 then
            .failure ⟨404, "No chunks found for book " ++ book_id⟩
          else
            match storageResp.chunks.find? (fun c => c.seq == seq) with
            | none =>
                .failure ⟨404, "Chunk " ++ toString seq ++ " not found for book " ++ book_id⟩
            | some chunk =>
                if !(fileExists chunk.file_path) then
                  .failure ⟨404, "Audio file not found: " ++ chunk.file_path⟩
                else
                  let etag := etagOf chunk.file_path
                  match req.if_none_match with
                  | some inm =>
                      if stripQuotes inm = etag then .notModified
                      else .file chunk.file_path "audio/ogg" "public, max-age=3600" etag
                  | none => .file chunk.file_path "audio/ogg" "public, max-age=3600" etag

/-- Concrete scenario for the chunk handler: token validity map with two
users; token `bob-token` belongs to user `bob`. -/
def c1SessionUser : String → Option String := fun t =>
  if t = "bob-token" then some "bob"
  else if t = "alice-token" then some "alice"
  else none

/-- Gateway-local `books` table containing book `b1`. -/
def c1Books : List GatewayBookRow :=
  [{ id := "b1", title := "T", format := "txt", status := "completed",
     percent_complete := 100, total_chunks := 1 }]

/-- The storage-side row for `b1`: it is owned by user `alice`. -/
def c1StorageBook : StorageBookRow :=
  { id := "b1", title := "T", status := "completed", user_id := "alice" }

/-- Storage's audio-chunk listing for `b1` with one chunk. -/
def c1StorageResp : StorageChunksResponse :=
  { status_code := 200
    chunks := [{ seq := 0, duration_s := 157 / 50, file_path := "/data/ogg/b1/chunk_000000.ogg" }] }

/-- Bob's request for chunk 0 of `b1`, authenticated by bearer header. -/
def c1Request : ChunkRequest :=
  { query_expires := none, query_signature := none, query_token := none,
    header_token := some "bob-token", if_none_match := none }

/-! ## Transcode completion envelope and the pipeline monitor (C2)

Embeds the envelope built by `AudioTranscoder.process_transcode_queue`
(`services/transcoder/main.py` lines 64-75) and its consumer
`ProcessingPipeline._check_transcoding_completion`
(`services/api/background_tasks.py` lines 192-224).  The JSON dict is a
structure whose optional fields are `none` when the key is absent;
`dict.get(key, default)` becomes `Option.getD`. -/

/-- A chunk metadata dict as produced by the transcoder
(`seq`, `duration_s`, `file_path`, `file_size`). -/
structure AudioChunkData where
  seq : Nat
  duration_s : Rat
  file_path : String
  file_size : Nat
deriving DecidableEq, Repr

/-- The JSON envelope pushed onto `transcode_completed`.  Keys that the
producer might include but may be absent are `Option`. -/
structure TranscodeCompletion where
  book_id : String
  success : Bool
  error : Option String
  chunks : Option (List AudioChunkData)
  total_chunks : Option Nat
deriving Repr

/-- The envelope that `process_transcode_queue` actually builds:
`{"book_id": ..., "success": ..., "error": None if success else "Transcoding failed"}`.
No `chunks` or `total_chunks` key is ever put in the dict. -/
def transcodeCompletionEnvelope (book_id : String) (success : Bool) : TranscodeCompletion :=
  { book_id := book_id
    success := success
    error := if success then none else some "Transcoding failed"
    chunks := none
    total_chunks := none }

/-- A book row as maintained by the pipeline monitor in the
gateway-local database, together with its chunk rows. -/
structure MonitorBookRow where
  id : String
  status : String
  percent_complete : Rat
  error_message : Option String
  total_chunks : Nat
  chunk_rows : List AudioChunkData
deriving Repr

/-- `_check_transcoding_completion` applied to one popped envelope: on
success it registers `task_data.get("chunks", [])` as chunk rows and
writes status `completed`, percent 100 and
`task_data.get("total_chunks", 0)`; on failure it writes `failed` with
the error message. -/
def check_transcoding_completion (env : TranscodeCompletion) (book : MonitorBookRow) :
    MonitorBookRow :=
  if env.success then
    let total_chunks := env.total_chunks.getD 0
    let chunks := env.chunks.getD []
    { book with chunk_rows := book.chunk_rows ++ chunks,
                status := "completed", percent_complete := 100,
                total_chunks := total_chunks }
  else
    { book with status := "failed",
                error_message := some (env.error.getD "Transcoding failed") }

/-! ## Status writes (C4)

Each site that writes a book status in `ProcessingPipeline`
(`services/api/background_tasks.py`), the gateway's `submit_book`, and
the storage service's `store_book_text` (`services/storage/main.py`)
becomes one event.  Every write is an unconditional UPDATE keyed by the
book id: the new status depends only on the event, never on the current
status. -/

inductive StatusWriteEvent where
  | submitBook
  | startProcessing
  | startProcessingFailed
  | triggerIngest
  | ingestCompleted (success : Bool)
  | segmentCompleted (success : Bool)
  | ttsCompleted (success : Bool)
  | transcodeCompleted (success : Bool)
  | storeBookText
deriving DecidableEq, Repr

/-- The status string written at each site:
`submit_book` re-writes `pending`; `start_processing` writes
`processing` (5%) and `failed` on exception; `_trigger_ingest` writes
`extracting` (10%); the four completion checkers write the next stage on
success and `failed` otherwise; `store_book_text` writes
`text_extracted`. -/
def statusWritten : StatusWriteEvent → String
  | .submitBook => "pending"
  | .startProcessing => "processing"
  | .startProcessingFailed => "failed"
  | .triggerIngest => "extracting"
  | .ingestCompleted true => "segmenting"
  | .ingestCompleted false => "failed"
  | .segmentCompleted true => "generating_audio"
  | .segmentCompleted false => "failed"
  | .ttsCompleted true => "transcoding"
  | .ttsCompleted false => "failed"
  | .transcodeCompleted true => "completed"
  | .transcodeCompleted false => "failed"
  | .storeBookText => "text_extracted"

/-- The seven status values declared by the specification (§4.7). -/
def specDeclaredStatuses : List String :=
  ["pending", "extracting", "segmenting", "generating_audio", "transcoding",
   "completed", "failed"]

/-- The eight members of the `BookStatus` enum in
`services/api/models.py`. -/
def bookStatusEnumValues : List String :=
  ["pending", "processing", "extracting", "segmenting", "generating_audio",
   "transcoding", "completed", "failed"]

/-- Every status value the writers can produce: the enum plus the
storage service's `text_extracted`. -/
def observedStatusValues : List String :=
  bookStatusEnumValues ++ ["text_extracted"]

/-- The successive statuses of a book row under a sequence of writes,
starting from the `pending` default of the schema.  Because each write
is unconditional, the row's status after an event is exactly
`statusWritten` of that event. -/
def statusTrace (evs : List StatusWriteEvent) : List String :=
  "pending" :: evs.map statusWritten

/-! ## The storage service's audio-chunk registry (C3)

Embeds `store_audio_chunks` and `get_audio_chunks` from
`services/storage/main.py` (lines 313-382).  The module imports
`from database_models import Base, User, Book, AudioChunk`, yet both
handlers reference the name `Chunk`, which is bound nowhere in the
module.  Evaluating an unbound global raises `NameError`, which the
handlers' blanket `except Exception` converts to an HTTP 500.  The model
resolves the name against the module's bound model names before running
the body, exactly as Python does at the first `db.query(Chunk)`. -/

/-- The ORM model names that `services/storage/main.py` binds when it
imports `database_models`. -/
def storageModuleModels : List String := ["User", "Book", "AudioChunk"]

/-- A row of the `chunks` table as `store_audio_chunks` tries to write
it (`sequence`, `duration` in milliseconds via `int(duration_s * 1000)`,
`file_path`). -/
structure StorageDbChunkRow where
  book_id : String
  sequence : Nat
  duration : Int
  file_path : String
deriving DecidableEq, Repr

/-- The storage service's database state relevant to the registry. -/
structure StorageDb where
  books : List StorageBookRow
  chunks : List StorageDbChunkRow
deriving Repr

/-- The `book.status = "completed"` write at the end of
`store_audio_chunks`. -/
def setBookCompleted (books : List StorageBookRow) (book_id : String) :
    List StorageBookRow :=
  books.map (fun b => if b.id == book_id then { b with status := "completed" } else b)

/-- `store_audio_chunks`: deletes the book's chunk rows, inserts the
posted ones, marks the book completed — but only after the name `Chunk`
resolves, which it never does. -/
def store_audio_chunks (db : StorageDb) (book_id : String)
    (body : List AudioChunkData) : (Nat × String) × StorageDb :=
  if storageModuleModels.contains "Chunk" then
    let cleared := db.chunks.filter (fun c => !(c.book_id == book_id))
    let added := body.map (fun c =>
      (⟨book_id, c.seq, ⌊c.duration_s * 1000⌋, c.file_path⟩ : StorageDbChunkRow))
    let db1 : StorageDb :=
      { books := setBookCompleted db.books book_id, chunks := cleared ++ added }
    ((200, "Stored " ++ toString body.length ++ " audio chunks for book " ++ book_id), db1)
  else
    ((500, "Failed to store audio chunks: name Chunk is not defined"), db)

/-- `get_audio_chunks`: selects the book's chunk rows ordered by
`sequence` and returns them with the total count and summed duration —
again guarded by resolving the unbound name `Chunk`. -/
def get_audio_chunks_endpoint (db : StorageDb) (book_id : String) :
    Except HttpError (Nat × Rat × List StorageChunkInfo) :=
  if storageModuleModels.contains "Chunk" then
    let rows := (db.chunks.filter (fun c => c.book_id == book_id)).mergeSort
      (fun a b => decide (a.sequence ≤ b.sequence))
    let chunk_list := rows.map (fun c =>
      (⟨c.sequence, (c.duration : Rat) / 1000, c.file_path⟩ : StorageChunkInfo))
    .ok (chunk_list.length, (chunk_list.map (·.duration_s)).sum, chunk_list)
  else
    .error ⟨500, "Failed to get audio chunks: name Chunk is not defined"⟩

/-! ## The password-reset handler (C10)

Embeds `reset_password` from `services/api/main.py` (lines 1388-1428)
and the `PasswordResetConfirm` request model
(`services/api/auth_models.py` lines 217-235).  Python attribute access
on the model is a lookup among its declared fields; the handler's
`request_data.token` misses them all, raising `AttributeError`, which
the blanket `except Exception` turns into a 500. -/

/-- The request model: fields `reset_token`, `new_password`,
`confirm_password`. -/
structure PasswordResetConfirm where
  reset_token : String
  new_password : List Char
  confirm_password : List Char
deriving Repr

/-- Pydantic validation of `PasswordResetConfirm`: password length
bounds, the four character classes, and the equality of the two
password fields. -/
def passwordResetConfirmValid (rd : PasswordResetConfirm) : Bool :=
  decide (8 ≤ rd.new_password.length) && decide (rd.new_password.length ≤ 128)
    && passwordClassesOk rd.new_password
    && decide (rd.new_password = rd.confirm_password)

/-- Attribute lookup on a `PasswordResetConfirm` instance: only the
three declared fields exist. -/
def resetConfirmAttr (rd : PasswordResetConfirm) : String → Option String
  | "reset_token" => some rd.reset_token
  | "new_password" => some (String.mk rd.new_password)
  | "confirm_password" => some (String.mk rd.confirm_password)
  | _ => none

/-- A stored user credential: email and adaptive password hash. -/
structure UserAccount where
  email : String
  password_hash : String
deriving DecidableEq, Repr

/-- `RedisUserService.reset_password_by_email`
(`services/api/redis_user_service.py`): looks up the user by email and
returns `True` without updating anything (the actual reset is a
documented TODO in the source). -/
def reset_password_by_email (users : List UserAccount) (email : String) :
    Bool × List UserAccount :=
  match users.find? (fun u => u.email == email) with
  | some _ => (true, users)
  | none => (false, users)

/-- `reset_password`: the handler's first statement evaluates
`request_data.token`; the remaining steps (validate the reset token,
extract the email claim, reset by email) are embedded as written even
though they are unreachable.  `validateResetToken` models
`SessionManager.validate_reset_token`, yielding the `email` claim of a
valid reset token. -/
def reset_password (validateResetToken : String → Option String)
    (users : List UserAccount) (rd : PasswordResetConfirm) :
    Except HttpError String × List UserAccount :=
  match resetConfirmAttr rd "token" with
  | none =>
      (.error ⟨500, "Password reset failed: PasswordResetConfirm object has no attribute token"⟩,
        users)
  | some tokenValue =>
      match validateResetToken tokenValue with
      | none => (.error ⟨400, "Invalid or expired reset token"⟩, users)
      | some user_email =>
          if user_email = "" then
            (.error ⟨400, "Invalid token payload"⟩, users)
          else
            match reset_password_by_email users user_email with
            | (true, users1) => (.ok "Password reset successfully", users1)
            | (false, users1) => (.error ⟨400, "Failed to reset password"⟩, users1)

/-! ## The text segmenter (C8)

Embeds `TextSegmenter._create_chunks` and the numbering done by
`TextSegmenter.segment_text` (`services/segmenter/main.py` lines
55-123).  Sentences are `List Char`. -/

/-- The loop body of `_create_chunks`, carried over the remaining
sentences with the accumulated chunks, the current chunk and
`current_size`.  Note the source increments `current_size` by
`sentence_length + (1 if current_chunk else 0)` after appending the
sentence, so the conditional is evaluated on the already-extended
chunk. -/
def createChunksLoop (maxSize : Nat) :
    List (List Char) → List (List (List Char)) → List (List Char) → Nat →
    List (List (List Char))
  | [], chunks, current, _ =>
      if current ≠ [] then chunks ++ [current] else chunks
  | s :: rest, chunks, current, size =>
      if current ≠ [] ∧ size + s.length + 1 > maxSize then
        createChunksLoop maxSize rest (chunks ++ [current]) [s] s.length
      else
        createChunksLoop maxSize rest chunks (current ++ [s])
          (size + s.length + (if current ++ [s] ≠ [] then 1 else 0))

/-- `TextSegmenter._create_chunks`. -/
def create_chunks (maxSize : Nat) (sentences : List (List Char)) :
    List (List (List Char)) :=
  createChunksLoop maxSize sentences [] [] 0

/-- The character count of `" ".join(chunk_sentences)`: the sentence
lengths plus one separating space between adjacent sentences. -/
def joinedLength (c : List (List Char)) : Nat :=
  match c with
  | [] => 0
  | _ => (c.map List.length).sum + (c.length - 1)

/-- The metadata record `segment_text` emits per chunk (ssml omitted). -/
structure TextChunk where
  seq : Nat
  char_count : Nat
deriving DecidableEq, Repr

/-- `TextSegmenter.segment_text`: chunks from `_create_chunks`,
enumerated so chunk `i` gets `seq = i` and
`char_count = len(" ".join(...))`. -/
def segment_text (maxSize : Nat) (sentences : List (List Char)) : List TextChunk :=
  (create_chunks maxSize sentences).enum.map
    (fun p => { seq := p.1, char_count := joinedLength p.2 })

/-! ## The transcoder's segmentation (C7)

Embeds `AudioTranscoder._transcode_wav_file` (lines 183-244) and the
global sequence numbering of `AudioTranscoder._transcode_book` (lines
125-136) from `services/transcoder/main.py`.  Durations and offsets are
`Rat`; the Python `int()` of the float division is `Int.floor` (all
quantities are non-negative). -/

/-- The `for segment_idx in range(num_segments)` loop: each index yields
the pair (start offset, actual duration) with
`actual = min(SEGMENT_DURATION, duration_s - start)`; the loop breaks
when `actual <= 0`. -/
def segLoop (SD D : Rat) : List Nat → List (Rat × Rat)
  | [] => []
  | i :: rest =>
      let start : Rat := (i : Rat) * SD
      let actual : Rat := min SD (D - start)
      if actual ≤ 0 then [] else (start, actual) :: segLoop SD D rest

/-- `_transcode_wav_file` on a source WAV of duration `D`:
`num_segments = int(duration_s / segment_duration) + 1` indices are
attempted. -/
def transcode_wav_segments (SD D : Rat) : List (Rat × Rat) :=
  segLoop SD D (List.range ((⌊D / SD⌋).toNat + 1))

/-- `_transcode_book`: folds over the per-book WAV manifest carrying the
global chunk counter; chunk `idx` of a WAV gets
`seq = global_chunk_seq + idx`, and an empty per-file chunk list fails
the whole book (`None` models the `return False` path). -/
def transcode_book (SD : Rat) : List Rat → Nat → Option (List (Nat × Rat × Rat))
  | [], _ => some []
  | D :: rest, globalSeq =>
      let cs := transcode_wav_segments SD D
      if cs = [] then none
      else
        match transcode_book SD rest (globalSeq + cs.length) with
        | none => none
        | some tail => some ((cs.enum.map (fun p => (globalSeq + p.1, p.2))) ++ tail)

/-! # Theorems -/

/-- C6 (counterexample): the password `Aaaaa123!` contains a run of four
identical consecutive characters, so the claim says registration rejects
it; the registration path accepts it.  Only `PasswordValidator`
(never invoked during registration) would reject it. -/
theorem c6_run_password_accepted_counterexample :
    registrationPasswordAccepted "Aaaaa123!".data = true ∧
    hasRunOfFour "Aaaaa123!".data = true ∧
    passwordValidatorValid "Aaaaa123!".data = false := by
  decide

/-- C6 (amended): `POST /auth/register` accepts a password exactly when
its length is 8..128 and it has the four character classes; every
password on the common reject list is (consequently) rejected, but runs
of more than 3 identical characters are not themselves checked. -/
theorem c6_register_password_policy :
    (∀ p : List Char,
      registrationPasswordAccepted p = true ↔
        (8 ≤ p.length ∧ p.length ≤ 128 ∧ hasUppercase p = true ∧ hasLowercase p = true
          ∧ hasDigit p = true ∧ hasSpecial p = true))
    ∧ commonPasswords.all (fun q => !(registrationPasswordAccepted q)) = true := by
  constructor
  · intro p
    simp only [registrationPasswordAccepted, registerRequestPasswordOk,
      userCreateRequestPasswordOk, passwordClassesOk, Bool.and_eq_true, decide_eq_true_eq]
    tauto
  · decide

/-- C9: a successful `POST /auth/refresh` always issues a token that
expires 30 days after the refresh, whatever the expiry of the presented
token was (the source passes `remember=True` unconditionally). -/
theorem c9_refresh_always_thirty_days (now : Int) (tok : TokenPayload)
    (newTok : TokenPayload) (expiresAt : Int)
    (h : refresh_session_token now tok = some (newTok, expiresAt)) :
    expiresAt = now + 30 * 24 * 3600 ∧ newTok.exp = now + 30 * 24 * 3600 ∧
      newTok.typ = "session" := by
  unfold refresh_session_token validate_session_token create_session_token at h
  by_cases h1 : tok.exp < now
  · simp [h1] at h
  · by_cases h2 : tok.typ ≠ "session"
    · simp [h1, h2] at h
    · by_cases h3 : tok.sub = ""
      · simp [h1, h2, h3] at h
      · simp [h1, h2, h3] at h
        obtain ⟨h4, h5⟩ := h
        refine ⟨?_, ?_, ?_⟩ <;> simp [← h4, ← h5]

/-- C9 (witness): refreshing a 24-hour token issued at time 0, at time 0,
yields expiry 2592000 s = 30 days. -/
theorem c9_refresh_witness :
    refresh_session_token 0 ⟨"u1", "alice", 86400, "session"⟩ =
      some (⟨"u1", "alice", 2592000, "session"⟩, 2592000) ∧
    (2592000 : Int) = 0 + 30 * 24 * 3600 := by
  have h : refresh_session_token 0 ⟨"u1", "alice", 86400, "session"⟩ =
      some (⟨"u1", "alice", 2592000, "session"⟩, 2592000) := by decide
  exact ⟨h, (c9_refresh_always_thirty_days 0 _ _ _ h).1⟩

/-- C10: for any validated `PasswordResetConfirm` body, the handler
fails with 500 (it reads the nonexistent attribute `token`) and the user
store is returned unchanged. -/
theorem c10_reset_password_internal_error
    (validateResetToken : String → Option String) (users : List UserAccount)
    (rd : PasswordResetConfirm) (_h : passwordResetConfirmValid rd = true) :
    reset_password validateResetToken users rd =
      (.error ⟨500, "Password reset failed: PasswordResetConfirm object has no attribute token"⟩,
        users) := by
  rfl

/-- C10 (witness): a concrete valid reset request against one stored
user hits the 500 path and leaves the stored hash unchanged. -/
theorem c10_reset_password_witness :
    passwordResetConfirmValid ⟨"sometoken", "NewPass123!".data, "NewPass123!".data⟩ = true ∧
    reset_password (fun _ => some "a@x.io") [⟨"a@x.io", "oldhash"⟩]
        ⟨"sometoken", "NewPass123!".data, "NewPass123!".data⟩ =
      (.error ⟨500, "Password reset failed: PasswordResetConfirm object has no attribute token"⟩,
        [⟨"a@x.io", "oldhash"⟩]) := by
  refine ⟨by decide, ?_⟩
  exact c10_reset_password_internal_error (fun _ => some "a@x.io") _ _ (by decide)

/-- C2: on success the transcoder's completion envelope carries only
`book_id`, `success` and a null `error`: the `chunks` and `total_chunks`
keys are absent, so the pipeline monitor registers no chunk rows and
writes `total_chunks = 0` even though it marks the book completed. -/
theorem c2_transcode_completion_missing_chunks (book_id : String) (book : MonitorBookRow) :
    (transcodeCompletionEnvelope book_id true).success = true ∧
    (transcodeCompletionEnvelope book_id true).error = none ∧
    (transcodeCompletionEnvelope book_id true).chunks = none ∧
    (transcodeCompletionEnvelope book_id true).total_chunks = none ∧
    (check_transcoding_completion (transcodeCompletionEnvelope book_id true) book).status
      = "completed" ∧
    (check_transcoding_completion (transcodeCompletionEnvelope book_id true) book).total_chunks
      = 0 ∧
    (check_transcoding_completion (transcodeCompletionEnvelope book_id true) book).chunk_rows
      = book.chunk_rows := by
  refine ⟨rfl, rfl, rfl, rfl, rfl, rfl, ?_⟩
  simp [check_transcoding_completion, transcodeCompletionEnvelope]

/-- C3: both audio-chunk registry handlers of the storage service fail
with 500 on every input — the name `Chunk` they query is not bound in
the module — and the database is never modified. -/
theorem c3_audio_chunk_registry_name_error :
    (∀ (db : StorageDb) (book_id : String) (body : List AudioChunkData),
        store_audio_chunks db book_id body =
          ((500, "Failed to store audio chunks: name Chunk is not defined"), db))
    ∧ (∀ (db : StorageDb) (book_id : String),
        get_audio_chunks_endpoint db book_id =
          .error ⟨500, "Failed to get audio chunks: name Chunk is not defined"⟩) :=
  ⟨fun _ _ _ => rfl, fun _ _ => rfl⟩

/-- C4 (counterexample): the very first pipeline write stores status
`processing`, and the storage service stores `text_extracted`; neither
is among the seven values declared by the specification. -/
theorem c4_status_outside_declared_counterexample :
    statusWritten .startProcessing = "processing" ∧
    specDeclaredStatuses.contains "processing" = false ∧
    statusWritten .storeBookText = "text_extracted" ∧
    specDeclaredStatuses.contains "text_extracted" = false := by
  decide

/-- C4 (amended): along any sequence of writes the row's status always
lies in the eight `BookStatus` enum values plus `text_extracted`; the
writes themselves are unconditional, keyed only by book id. -/
theorem c4_status_values_observed (evs : List StatusWriteEvent) :
    (statusTrace evs).all (fun s => observedStatusValues.contains s) = true := by
  have he : ∀ e : StatusWriteEvent, observedStatusValues.contains (statusWritten e) = true := by
    intro e
    rcases e with _ | _ | _ | _ | b | b | b | b | _ <;>
      first
        | decide
        | (cases b <;> decide)
  simp only [statusTrace, List.all_cons, List.all_eq_true, Bool.and_eq_true]
  refine ⟨by decide, ?_⟩
  intro s hs
  rw [List.mem_map] at hs
  obtain ⟨e, _, rfl⟩ := hs
  exact he e

/-- C5: a generated signed URL, presented with all three of its
parameters, verifies to the embedded token at any time up to `expires`
and is rejected 401 after `expires`; any signature other than the
recomputed HMAC is rejected 401. -/
theorem c5_signed_url_round_trip
    (hmacHex : String → String → String) (secret : String)
    (validateToken : String → Bool) (book_id : String) (chunk_seq : Nat)
    (token : String) (tGen expires_in now : Int)
    (hTok : validateToken token = true) :
    generate_signed_url hmacHex secret book_id chunk_seq token tGen expires_in =
      ⟨tGen + expires_in,
        hmacHex secret
          (signatureData (chunkEndpoint book_id chunk_seq) (tGen + expires_in) token),
        token⟩
    ∧ (now ≤ tGen + expires_in →
        verify_signed_url hmacHex secret validateToken now book_id chunk_seq
          (some (tGen + expires_in))
          (some (hmacHex secret
            (signatureData (chunkEndpoint book_id chunk_seq) (tGen + expires_in) token)))
          (some token) = .ok token)
    ∧ (tGen + expires_in < now →
        verify_signed_url hmacHex secret validateToken now book_id chunk_seq
          (some (tGen + expires_in))
          (some (hmacHex secret
            (signatureData (chunkEndpoint book_id chunk_seq) (tGen + expires_in) token)))
          (some token) = .error ⟨401, "Signed URL has expired"⟩)
    ∧ (∀ sig : String,
        sig ≠ hmacHex secret
          (signatureData (chunkEndpoint book_id chunk_seq) (tGen + expires_in) token) →
        ∃ e : HttpError,
          verify_signed_url hmacHex secret validateToken now book_id chunk_seq
            (some (tGen + expires_in)) (some sig) (some token) = .error e
          ∧ e.status = 401) := by
  refine ⟨rfl, ?_, ?_, ?_⟩
  · intro h
    simp only [verify_signed_url]
    rw [if_neg (by omega : ¬ now > tGen + expires_in)]
    simp [hTok]
  · intro h
    simp only [verify_signed_url]
    rw [if_pos (by omega : now > tGen + expires_in)]
  · intro sig hsig
    by_cases h : now > tGen + expires_in
    · refine ⟨⟨401, "Signed URL has expired"⟩, ?_, rfl⟩
      simp only [verify_signed_url]
      rw [if_pos h]
    · refine ⟨⟨401, "Invalid signature"⟩, ?_, rfl⟩
      simp only [verify_signed_url]
      rw [if_neg h, if_pos hsig]

/-- C5 (witness): with a concrete HMAC function, secret, token and
times, the generated URL verifies before expiry. -/
theorem c5_signed_url_witness :
    (fun t => t == "tok") "tok" = true ∧
    (200 : Int) ≤ 100 + 3600 ∧
    verify_signed_url (fun k m => k ++ "#" ++ m) "s" (fun t => t == "tok") 200 "b1" 0
      (some ((100 : Int) + 3600))
      (some ((fun (k m : String) => k ++ "#" ++ m) "s"
        (signatureData (chunkEndpoint "b1" 0) ((100 : Int) + 3600) "tok")))
      (some "tok") = .ok "tok" := by
  refine ⟨by decide, by omega, ?_⟩
  exact (c5_signed_url_round_trip (fun k m => k ++ "#" ++ m) "s" (fun t => t == "tok")
    "b1" 0 "tok" 100 3600 200 (by decide)).2.1 (by omega)

/-- C1: the chunk handler serves the file to any authenticated session,
with no ownership comparison: here book `b1` is owned by `alice` in the
storage-side row, yet a request bearing `bob`'s valid session token
receives the 200 file response instead of the claimed 404. -/
theorem c1_chunk_served_to_non_owner :
    c1StorageBook.user_id = "alice" ∧
    c1SessionUser "bob-token" = some "bob" ∧
    "bob" ≠ "alice" ∧
    get_audio_chunk (fun k m => k ++ "#" ++ m) "secret-key" c1SessionUser 1000
        (fun _ => true) (fun p => "etag-of-" ++ p) c1Books c1StorageResp "b1" 0 c1Request
      = .file "/data/ogg/b1/chunk_000000.ogg" "audio/ogg" "public, max-age=3600"
          "etag-of-/data/ogg/b1/chunk_000000.ogg" := by
  refine ⟨rfl, rfl, by decide, ?_⟩
  rfl

/-- Character count of a chunk headed by a sentence. -/
theorem joinedLength_cons (a : List Char) (t : List (List Char)) :
    joinedLength (a :: t) = ((a :: t).map List.length).sum + t.length := by
  simp [joinedLength]

/-- A one-sentence chunk joins to the sentence itself. -/
theorem joinedLength_singleton (s : List Char) : joinedLength [s] = s.length := by
  simp [joinedLength]

/-- Appending a sentence to a nonempty chunk adds its length plus one
separating space. -/
theorem joinedLength_append_singleton (c : List (List Char)) (s : List Char) (h : c ≠ []) :
    joinedLength (c ++ [s]) = joinedLength c + 1 + s.length := by
  cases c with
  | nil => exact absurd rfl h
  | cons a t =>
      rw [List.cons_append, joinedLength_cons, joinedLength_cons]
      simp [List.map_append, List.sum_append]
      omega

/-- Invariant of the segmenter's packing loop: every emitted chunk fits
the budget or is a single sentence, and the sentences are preserved in
order.  The loop state satisfies: `current_size` dominates the joined
length of the open chunk, and an open chunk of two or more sentences
already fits the budget. -/
theorem createChunksLoop_spec (maxSize : Nat) :
    ∀ (rest : List (List Char)) (chunks : List (List (List Char)))
      (current : List (List Char)) (size : Nat),
      ((chunks.all (fun c => decide (joinedLength c ≤ maxSize) || decide (c.length = 1)))
        = true) →
      (current ≠ [] → joinedLength current ≤ size) →
      (2 ≤ current.length → joinedLength current ≤ maxSize) →
      ((createChunksLoop maxSize rest chunks current size).all
          (fun c => decide (joinedLength c ≤ maxSize) || decide (c.length = 1)) = true)
      ∧ (createChunksLoop maxSize rest chunks current size).flatten
          = chunks.flatten ++ current ++ rest := by
  intro rest
  induction rest with
  | nil =>
      intro chunks current size hall h2 h3
      by_cases hc : current = []
      · subst hc
        simp [createChunksLoop, hall]
      · have hpred : (decide (joinedLength current ≤ maxSize)
            || decide (current.length = 1)) = true := by
          match hl : current.length with
          | 0 => exact absurd (List.length_eq_zero.mp hl) hc
          | 1 => simp [hl]
          | (n + 2) =>
              have := h3 (by omega)
              simp [this]
        constructor
        · simp only [createChunksLoop, if_pos hc, List.all_append, List.all_cons,
            List.all_nil, Bool.and_true, hall, hpred, Bool.true_and]
        · simp [createChunksLoop, hc]
  | cons s rest2 ih =>
      intro chunks current size hall h2 h3
      by_cases hflush : current ≠ [] ∧ size + s.length + 1 > maxSize
      · have hpred : (decide (joinedLength current ≤ maxSize)
            || decide (current.length = 1)) = true := by
          match hl : current.length with
          | 0 => exact absurd (List.length_eq_zero.mp hl) hflush.1
          | 1 => simp [hl]
          | (n + 2) =>
              have := h3 (by omega)
              simp [this]
        have hall2 : ((chunks ++ [current]).all
            (fun c => decide (joinedLength c ≤ maxSize) || decide (c.length = 1))) = true := by
          simp only [List.all_append, List.all_cons, List.all_nil, Bool.and_true, hall, hpred,
            Bool.true_and]
        have h2new : ([s] : List (List Char)) ≠ [] → joinedLength [s] ≤ s.length := by
          intro _
          rw [joinedLength_singleton]
        have h3new : 2 ≤ ([s] : List (List Char)).length → joinedLength [s] ≤ maxSize := by
          intro habs
          simp at habs
        obtain ⟨ha, hj⟩ := ih (chunks ++ [current]) [s] s.length hall2 h2new h3new
        rw [createChunksLoop, if_pos hflush]
        refine ⟨ha, ?_⟩
        rw [hj]
        simp
      · have hsize : current ≠ [] → size + s.length + 1 ≤ maxSize := by
          intro hne
          by_contra hgt
          exact hflush ⟨hne, by omega⟩
        have hne2 : current ++ [s] ≠ [] := by simp
        have h2new : current ++ [s] ≠ [] →
            joinedLength (current ++ [s]) ≤ size + s.length + 1 := by
          intro _
          by_cases hc : current = []
          · subst hc
            rw [List.nil_append, joinedLength_singleton]
            omega
          · rw [joinedLength_append_singleton current s hc]
            have := h2 hc
            omega
        have h3new : 2 ≤ (current ++ [s]).length → joinedLength (current ++ [s]) ≤ maxSize := by
          intro hlen
          have hc : current ≠ [] := by
            intro hcc
            subst hcc
            simp at hlen
          rw [joinedLength_append_singleton current s hc]
          have := h2 hc
          have := hsize hc
          omega
        obtain ⟨ha, hj⟩ := ih chunks (current ++ [s])
          (size + s.length + (if current ++ [s] ≠ [] then 1 else 0)) hall
          (by rw [if_pos hne2]; exact h2new) h3new
        rw [createChunksLoop, if_neg hflush]
        refine ⟨ha, ?_⟩
        rw [hj]
        simp

/-- C8: every chunk the segmenter emits either joins to at most the
configured budget or consists of a single (oversized) sentence kept
whole; the sentences are preserved in document order; and the emitted
chunks are numbered 0, 1, 2, … in that order. -/
theorem c8_segmenter_greedy_packing (maxSize : Nat) (sentences : List (List Char)) :
    ((create_chunks maxSize sentences).all
        (fun c => decide (joinedLength c ≤ maxSize) || decide (c.length = 1)) = true)
    ∧ (create_chunks maxSize sentences).flatten = sentences
    ∧ (segment_text maxSize sentences).map (fun t => t.seq)
        = List.range (create_chunks maxSize sentences).length := by
  obtain ⟨ha, hj⟩ := createChunksLoop_spec maxSize sentences [] [] 0
    (by simp) (fun h => absurd rfl h) (by intro h; simp at h)
  refine ⟨ha, by simpa using hj, ?_⟩
  simp only [segment_text, List.map_map]
  have : ((fun t : TextChunk => t.seq) ∘
      (fun p : Nat × List (List Char) => TextChunk.mk p.1 (joinedLength p.2)))
      = Prod.fst := rfl
  rw [this, List.enum_map_fst]

/-- Indices whose segment would be nonempty are all emitted with offset
`i * SEGMENT_DURATION` and duration `min(SEGMENT_DURATION, D - offset)`. -/
theorem segLoop_of_pos (SD D : Rat) (l : List Nat)
    (h : ∀ i ∈ l, 0 < min SD (D - (i : Rat) * SD)) :
    segLoop SD D l = l.map (fun i : Nat => ((i : Rat) * SD, min SD (D - (i : Rat) * SD))) := by
  induction l with
  | nil => rfl
  | cons i rest ih =>
      have hi := h i (List.mem_cons_self i rest)
      simp only [segLoop]
      rw [if_neg (not_le.mpr hi)]
      rw [ih (fun j hj => h j (List.mem_cons_of_mem i hj))]
      simp

theorem segLoop_append_of_pos (SD D : Rat) (l1 l2 : List Nat)
    (h : ∀ i ∈ l1, 0 < min SD (D - (i : Rat) * SD)) :
    segLoop SD D (l1 ++ l2)
      = l1.map (fun i : Nat => ((i : Rat) * SD, min SD (D - (i : Rat) * SD))) ++ segLoop SD D l2 := by
  induction l1 with
  | nil => simp
  | cons i rest ih =>
      have hi := h i (List.mem_cons_self i rest)
      simp only [List.cons_append, segLoop]
      rw [if_neg (not_le.mpr hi)]
      simp only [List.append_eq]
      rw [ih (fun j hj => h j (List.mem_cons_of_mem i hj))]
      simp

theorem transcode_wav_segments_spec (SD D : Rat) (hSD : 0 < SD) (hD : 0 < D) :
    0 < (transcode_wav_segments SD D).length
    ∧ transcode_wav_segments SD D =
        (List.range (transcode_wav_segments SD D).length).map
          (fun i : Nat => ((i : Rat) * SD,
            if i + 1 < (transcode_wav_segments SD D).length then SD
            else D - (((transcode_wav_segments SD D).length : Rat) - 1) * SD))
    ∧ 0 < D - (((transcode_wav_segments SD D).length : Rat) - 1) * SD
    ∧ D - (((transcode_wav_segments SD D).length : Rat) - 1) * SD ≤ SD := by
  have hSDne : SD ≠ 0 := ne_of_gt hSD
  set k : Int := ⌊D / SD⌋ with hkdef
  have hk0 : 0 ≤ k := Int.floor_nonneg.mpr (le_of_lt (div_pos hD hSD))
  have hkcast : ((k.toNat : Int) : Rat) = (k : Rat) := by
    rw [Int.toNat_of_nonneg hk0]
  have hfl : (k : Rat) * SD ≤ D := by
    have h1 : (k : Rat) ≤ D / SD := Int.floor_le (D / SD)
    calc (k : Rat) * SD ≤ (D / SD) * SD := by
          exact mul_le_mul_of_nonneg_right h1 (le_of_lt hSD)
      _ = D := div_mul_cancel₀ D hSDne
  have hub : D < ((k : Rat) + 1) * SD := by
    have h1 : D / SD < (k : Rat) + 1 := Int.lt_floor_add_one (D / SD)
    calc D = (D / SD) * SD := (div_mul_cancel₀ D hSDne).symm
      _ < ((k : Rat) + 1) * SD := by
          exact mul_lt_mul_of_pos_right h1 hSD
  -- positivity of all indices strictly below k
  have hposlt : ∀ i : Nat, (i : Rat) < (k : Rat) + 1 → (i : Rat) * SD < ((k : Rat) + 1) * SD →
      True := fun _ _ _ => trivial
  rcases eq_or_lt_of_le hfl with hrem | hrem
  · -- exact multiple: D = k * SD
    have hk1 : 1 ≤ k := by
      by_contra hlt
      push_neg at hlt
      interval_cases k
      · rw [← hrem] at hD
        simp at hD
    have hkn1 : 1 ≤ k.toNat := by omega
    -- indices 0 .. k-1 are positive
    have hpos : ∀ i ∈ List.range k.toNat, 0 < min SD (D - (i : Rat) * SD) := by
      intro i hi
      rw [List.mem_range] at hi
      have hic : (i : Rat) ≤ (k : Rat) - 1 := by
        have : (i : Int) ≤ k - 1 := by omega
        calc (i : Rat) = ((i : Int) : Rat) := by push_cast; ring
          _ ≤ ((k - 1 : Int) : Rat) := by exact_mod_cast this
          _ = (k : Rat) - 1 := by push_cast; ring
      refine lt_min hSD ?_
      have : (i : Rat) * SD ≤ ((k : Rat) - 1) * SD :=
        mul_le_mul_of_nonneg_right hic (le_of_lt hSD)
      have h2 : ((k : Rat) - 1) * SD = D - SD := by
        rw [← hrem]; ring
      nlinarith
    have hlast : min SD (D - (k.toNat : Rat) * SD) ≤ 0 := by
      have : D - (k.toNat : Rat) * SD = 0 := by
        have : ((k.toNat : Nat) : Rat) = (k : Rat) := by
          exact_mod_cast hkcast
        rw [this, ← hrem]
        ring
      rw [this]
      exact min_le_right SD 0
    have hsegs : transcode_wav_segments SD D
        = (List.range k.toNat).map (fun i : Nat => ((i : Rat) * SD, min SD (D - (i : Rat) * SD))) := by
      unfold transcode_wav_segments
      rw [List.range_succ, segLoop_append_of_pos SD D _ _ hpos]
      have : segLoop SD D [k.toNat] = [] := by
        simp only [segLoop]
        rw [if_pos hlast]
      rw [this, List.append_nil]
    have hlen : (transcode_wav_segments SD D).length = k.toNat := by
      rw [hsegs, List.length_map, List.length_range]
    have hkr : ((k.toNat : Nat) : Rat) = (k : Rat) := by exact_mod_cast hkcast
    refine ⟨by omega, ?_, ?_, ?_⟩
    · rw [hlen, hsegs]
      apply List.map_congr_left
      intro i hi
      rw [List.mem_range] at hi
      rcases Nat.lt_or_ge (i + 1) k.toNat with hcase | hcase
      · rw [if_pos hcase]
        have hic : (i : Rat) ≤ (k : Rat) - 2 := by
          have : (i : Int) ≤ k - 2 := by omega
          calc (i : Rat) = ((i : Int) : Rat) := by push_cast; ring
            _ ≤ ((k - 2 : Int) : Rat) := by exact_mod_cast this
            _ = (k : Rat) - 2 := by push_cast; ring
        have hge : SD ≤ D - (i : Rat) * SD := by
          have h1 : (i : Rat) * SD ≤ ((k : Rat) - 2) * SD :=
            mul_le_mul_of_nonneg_right hic (le_of_lt hSD)
          have h2 : ((k : Rat) - 2) * SD = D - 2 * SD := by
            rw [← hrem]; ring
          nlinarith
        rw [min_eq_left hge]
      · have hieq : i = k.toNat - 1 := by omega
        rw [if_neg (by omega)]
        subst hieq
        have hcast2 : ((k.toNat - 1 : Nat) : Rat) = (k : Rat) - 1 := by
          have : ((k.toNat - 1 : Nat) : Int) = k - 1 := by omega
          calc ((k.toNat - 1 : Nat) : Rat) = (((k.toNat - 1 : Nat) : Int) : Rat) := by push_cast; ring
            _ = ((k - 1 : Int) : Rat) := by exact_mod_cast this
            _ = (k : Rat) - 1 := by push_cast; ring
        rw [hcast2, hkr]
        have hval : D - ((k : Rat) - 1) * SD = SD := by
          rw [← hrem]; ring
        rw [hval, min_self]
    · rw [hlen, hkr]
      have hval : D - ((k : Rat) - 1) * SD = SD := by
        rw [← hrem]; ring
      rw [hval]; exact hSD
    · rw [hlen, hkr]
      have hval : D - ((k : Rat) - 1) * SD = SD := by
        rw [← hrem]; ring
      rw [hval]
  · -- positive remainder: k*SD < D
    have hpos : ∀ i ∈ List.range (k.toNat + 1), 0 < min SD (D - (i : Rat) * SD) := by
      intro i hi
      rw [List.mem_range] at hi
      have hic : (i : Rat) ≤ (k : Rat) := by
        have : (i : Int) ≤ k := by omega
        calc (i : Rat) = ((i : Int) : Rat) := by push_cast; ring
          _ ≤ ((k : Int) : Rat) := by exact_mod_cast this
          _ = (k : Rat) := rfl
      refine lt_min hSD ?_
      have : (i : Rat) * SD ≤ (k : Rat) * SD :=
        mul_le_mul_of_nonneg_right hic (le_of_lt hSD)
      nlinarith
    have hsegs : transcode_wav_segments SD D
        = (List.range (k.toNat + 1)).map
            (fun i : Nat => ((i : Rat) * SD, min SD (D - (i : Rat) * SD))) := by
      unfold transcode_wav_segments
      exact segLoop_of_pos SD D _ hpos
    have hlen : (transcode_wav_segments SD D).length = k.toNat + 1 := by
      rw [hsegs, List.length_map, List.length_range]
    have hkr0 : ((k.toNat : Nat) : Rat) = (k : Rat) := by exact_mod_cast hkcast
    have hkr : ((k.toNat + 1 : Nat) : Rat) - 1 = (k : Rat) := by
      push_cast
      rw [hkr0]
      ring
    refine ⟨by omega, ?_, ?_, ?_⟩
    · rw [hlen, hsegs]
      apply List.map_congr_left
      intro i hi
      rw [List.mem_range] at hi
      rcases Nat.lt_or_ge (i + 1) (k.toNat + 1) with hcase | hcase
      · rw [if_pos hcase]
        have hic : (i : Rat) ≤ (k : Rat) - 1 := by
          have : (i : Int) ≤ k - 1 := by omega
          calc (i : Rat) = ((i : Int) : Rat) := by push_cast; ring
            _ ≤ ((k - 1 : Int) : Rat) := by exact_mod_cast this
            _ = (k : Rat) - 1 := by push_cast; ring
        have hge : SD ≤ D - (i : Rat) * SD := by
          have h1 : (i : Rat) * SD ≤ ((k : Rat) - 1) * SD :=
            mul_le_mul_of_nonneg_right hic (le_of_lt hSD)
          nlinarith
        rw [min_eq_left hge]
      · have hieq : i = k.toNat := by omega
        rw [if_neg (by omega)]
        subst hieq
        rw [hkr, hkr0]
        have hle : D - (k : Rat) * SD ≤ SD := by nlinarith
        rw [min_eq_right hle]
    · rw [hlen, hkr]
      linarith
    · rw [hlen, hkr]
      nlinarith

theorem transcode_book_contiguous (SD : Rat) (hSD : 0 < SD) :
    ∀ (durs : List Rat), (∀ x ∈ durs, 0 < x) → ∀ g : Nat,
      ∃ res, transcode_book SD durs g = some res
        ∧ res.map (fun c => c.1) = List.range' g res.length := by
  intro durs
  induction durs with
  | nil =>
      intro _ g
      exact ⟨[], rfl, by simp⟩
  | cons D rest ih =>
      intro h g
      have hD := h D (List.mem_cons_self D rest)
      have hlen := (transcode_wav_segments_spec SD D hSD hD).1
      have hne : transcode_wav_segments SD D ≠ [] := by
        intro hnil
        rw [hnil] at hlen
        simp at hlen
      obtain ⟨tail, htail, hmap⟩ :=
        ih (fun x hx => h x (List.mem_cons_of_mem D hx))
          (g + (transcode_wav_segments SD D).length)
      refine ⟨(transcode_wav_segments SD D).enum.map (fun p => (g + p.1, p.2)) ++ tail, ?_, ?_⟩
      · simp only [transcode_book]
        rw [if_neg hne, htail]
      · rw [List.map_append, hmap, List.map_map]
        have hcomp : ((fun c : Nat × Rat × Rat => c.1) ∘
            (fun p : Nat × (Rat × Rat) => (g + p.1, p.2))) = (fun p => g + p.1) := rfl
        rw [hcomp]
        have h1 : (transcode_wav_segments SD D).enum.map
            (fun p : Nat × (Rat × Rat) => g + p.1)
            = ((transcode_wav_segments SD D).enum.map Prod.fst).map (fun i => g + i) := by
          rw [List.map_map]
          rfl
        rw [h1, List.enum_map_fst]
        have h2 : (List.range (transcode_wav_segments SD D).length).map (fun i => g + i)
            = List.range' g (transcode_wav_segments SD D).length := by
          rw [List.range'_eq_map_range]
        rw [h2]
        have h3 := List.range'_append g (transcode_wav_segments SD D).length tail.length 1
        simp only [Nat.one_mul] at h3
        rw [h3]
        congr 1
        simp [Nat.add_comm]

/-- C7: per source WAV of duration `D > 0`, the transcoder's segments
start at offsets 0, SD, 2·SD, …, each lasting exactly SD except the
last, whose duration is the positive remainder of `D` after the
preceding full segments; and across a book's WAV files the global chunk
sequence numbers form the contiguous range starting at 0. -/
theorem c7_transcoder_segmentation (SD D : Rat) (durs : List Rat)
    (hSD : 0 < SD) (hD : 0 < D) (hdurs : ∀ x ∈ durs, 0 < x) :
    (0 < (transcode_wav_segments SD D).length
      ∧ transcode_wav_segments SD D =
          (List.range (transcode_wav_segments SD D).length).map
            (fun i : Nat => ((i : Rat) * SD,
              if i + 1 < (transcode_wav_segments SD D).length then SD
              else D - (((transcode_wav_segments SD D).length : Rat) - 1) * SD))
      ∧ 0 < D - (((transcode_wav_segments SD D).length : Rat) - 1) * SD
      ∧ D - (((transcode_wav_segments SD D).length : Rat) - 1) * SD ≤ SD)
    ∧ (∃ res, transcode_book SD durs 0 = some res
        ∧ res.map (fun c => c.1) = List.range res.length) := by
  refine ⟨transcode_wav_segments_spec SD D hSD hD, ?_⟩
  obtain ⟨res, hres, hmap⟩ := transcode_book_contiguous SD hSD durs hdurs 0
  refine ⟨res, hres, ?_⟩
  rw [hmap, ← List.range_eq_range']

/-- C7 (witness): with the default segment duration 3.14 s, a 5 s WAV
splits into a full 3.14 s segment and a 1.86 s remainder, and a book of
two WAVs gets contiguous sequence numbers from 0. -/
theorem c7_transcoder_witness :
    (0 : Rat) < 157 / 50 ∧ (0 : Rat) < 5 ∧ (∀ x ∈ ([5, 2] : List Rat), 0 < x) ∧
    transcode_wav_segments (157 / 50) 5 = [(0, 157 / 50), (157 / 50, 93 / 50)] ∧
    (∃ res, transcode_book (157 / 50) [5, 2] 0 = some res
        ∧ res.map (fun c => c.1) = List.range res.length) := by
  have hseg : transcode_wav_segments (157 / 50) 5 = [(0, 157 / 50), (157 / 50, 93 / 50)] := by
    have hf : (⌊(5 : ℚ) / (157 / 50)⌋ : Int) = 1 := by norm_num [Int.floor_eq_iff]
    rw [transcode_wav_segments, hf]
    norm_num [segLoop, List.range_succ, min_def]
  refine ⟨by norm_num, by norm_num, by decide, hseg, ?_⟩
  exact (c7_transcoder_segmentation (157 / 50) 5 [5, 2] (by norm_num) (by norm_num)
    (by decide)).2

end Evocable
